import Mathlib

/-!
Shallow embedding of the aggregation / trend / anomaly pipeline of the
data-processor Lambda (src/lambda/data-processor/index.py) and of the
keyword-based sentiment fallback of the sentiment analyzer
(src/lambda/sentiment-analyzer/index.py).

Numeric model: Python floats are modelled as exact rationals.  The only
irrational value the code produces is `statistics.stdev` (a square root),
modelled in the reals via `Real.sqrt`.  Python `round(x, 2)` is modelled
as exact banker's rounding (round half to even) on the rational model.
Python dicts are modelled as association lists in insertion order, and
`collections.Counter` iteration order (first-encounter order of keys) is
modelled explicitly.
-/

namespace SocialListening

/-- One per-post sentiment record, as consumed by `aggregate_sentiment_data`.
`confidence = none` models a record without a confidence attribute
(`item.get('confidence')` yields a falsy `None`).  Emotion scores are
numeric in the data model, so the `isinstance(score, (int, float, Decimal))`
guard of line 277 is vacuously true here. -/
structure SentimentRecord where
  sentiment : String
  confidence : Option ℚ
  emotions : List (String × ℚ)
  keywords : List String
deriving DecidableEq

/-- Python truthiness of the value read by `item.get('confidence')`:
a missing field (None) and the number 0 are falsy, every other number is
truthy. -/
def confTruthy : Option ℚ → Bool
  | none => false
  | some c => if c = 0 then false else true

/-- Line 270: `[float(item.get('confidence', 0)) for item in data if item.get('confidence')]`. -/
def confidences (data : List SentimentRecord) : List ℚ :=
  (data.filter fun item => confTruthy item.confidence).map fun item => item.confidence.getD 0

/-- `statistics.mean` on the exact-rational model (callers guard nonemptiness). -/
def meanQ (xs : List ℚ) : ℚ := xs.sum / xs.length

/-- `statistics.median`: middle element of the sorted series when the length is
odd, otherwise the average of the two middle elements. -/
def medianQ (xs : List ℚ) : ℚ :=
  let s := List.insertionSort (· ≤ ·) xs
  let n := xs.length
  if n % 2 = 1 then s.getD (n / 2) 0
  else (s.getD (n / 2 - 1) 0 + s.getD (n / 2) 0) / 2

/-- Python `min` over a nonempty numeric series. -/
def minQ : List ℚ → ℚ
  | [] => 0
  | a :: rest => rest.foldl min a

/-- Python `max` over a nonempty numeric series. -/
def maxQ : List ℚ → ℚ
  | [] => 0
  | a :: rest => rest.foldl max a

/-- The sample variance (square of `statistics.stdev`), denominator n − 1. -/
def sampleVarQ (xs : List ℚ) : ℚ :=
  (xs.map fun x => (x - meanQ xs) ^ 2).sum / ((xs.length : ℚ) - 1)

/-- `statistics.stdev`: square root of the sample variance. -/
noncomputable def stdevR (xs : List ℚ) : ℝ := Real.sqrt (sampleVarQ xs)

/-- Round half to even to an integer: the tie-breaking rule of Python `round`. -/
def roundHalfEven (q : ℚ) : ℤ :=
  if Int.fract q = 1 / 2 then (if ⌊q⌋ % 2 = 0 then ⌊q⌋ else ⌊q⌋ + 1)
  else round q

/-- Python `round(x, 2)` on the exact-rational model. -/
def round2Q (q : ℚ) : ℚ := (roundHalfEven (q * 100) : ℚ) / 100

/-- The keys of `Counter(l)` in first-encounter order.  Mathlib `dedup` keeps
the last occurrence of each element, so deduplicating the reversed list and
reversing back keeps exactly the first occurrences, in their original
relative order. -/
def firstOccs {α : Type} [DecidableEq α] (l : List α) : List α :=
  l.reverse.dedup.reverse

/-- `Counter(l).items()`: each distinct element paired with its multiplicity,
keyed in first-encounter order. -/
def counterItems {α : Type} [DecidableEq α] (l : List α) : List (α × ℕ) :=
  (firstOccs l).map fun k => (k, l.count k)

/-- Line 266: `[item.get('sentiment', 'unknown') for item in data]`. -/
def sentiments (data : List SentimentRecord) : List String :=
  data.map (·.sentiment)

/-- Lines 319-322: label ↦ `round(count / len(data) * 100, 2)`, keyed like the
Counter (labels absent from the input are absent here). -/
def sentimentPercentages (data : List SentimentRecord) : List (String × ℚ) :=
  (counterItems (sentiments data)).map fun kv =>
    (kv.1, round2Q ((kv.2 : ℚ) / (data.length : ℚ) * 100))

/-- Lines 273-278: the per-emotion score series `emotions_data[e]`, in record
order. -/
def emotionScores (e : String) (data : List SentimentRecord) : List ℚ :=
  data.flatMap fun item => (item.emotions.filter fun p => p.1 == e).map (·.2)

/-- The emotion keys of `emotions_data` in first-appearance order (defaultdict
insertion order). -/
def emotionKeys (data : List SentimentRecord) : List String :=
  firstOccs (data.flatMap fun item => item.emotions.map (·.1))

/-- The dict literal of lines 283-289: the five-entry per-emotion stats block. -/
noncomputable def statsBlock5 (scores : List ℚ) : List (String × ℝ) :=
  [("mean", (meanQ scores : ℝ)),
   ("median", (medianQ scores : ℝ)),
   ("std", if scores.length > 1 then stdevR scores else 0),
   ("min", (minQ scores : ℝ)),
   ("max", (maxQ scores : ℝ))]

/-- Lines 280-289: emotion ↦ stats block, emitted only for a nonempty series
(the `if scores:` guard). -/
noncomputable def emotionsStats (data : List SentimentRecord) :
    List (String × List (String × ℝ)) :=
  (emotionKeys data).filterMap fun e =>
    let scores := emotionScores e data
    if scores.isEmpty then none else some (e, statsBlock5 scores)

/-- The dict literal of lines 324-328: the confidence stats block carries only
`mean`, `median` and `std` (no `min`/`max` entries), each guarded against an
empty series. -/
noncomputable def confidenceStatsOf (cs : List ℚ) : List (String × ℝ) :=
  [("mean", if cs.isEmpty then 0 else (meanQ cs : ℝ)),
   ("median", if cs.isEmpty then 0 else (medianQ cs : ℝ)),
   ("std", if cs.length > 1 then stdevR cs else 0)]

/-- Lines 292-295: every keyword occurrence across all records, in order. -/
def allKeywords (data : List SentimentRecord) : List String :=
  data.flatMap (·.keywords)

/-- Sort key of `Counter.most_common` on index-decorated counter items:
strictly greater count first; on equal counts, the smaller index (earlier
first encounter) first.  This relation is total and transitive, so sorting
by it reproduces the stable descending order of `heapq.nlargest`. -/
def mcRel (a b : ℕ × (String × ℕ)) : Prop :=
  b.2.2 < a.2.2 ∨ (a.2.2 = b.2.2 ∧ a.1 ≤ b.1)

instance : DecidableRel mcRel := fun a b => by unfold mcRel; infer_instance

instance : IsTrans (ℕ × String × ℕ) mcRel := by
  constructor
  rintro a b c (hab | ⟨hab1, hab2⟩) (hbc | ⟨hbc1, hbc2⟩)
  · exact Or.inl (lt_trans hbc hab)
  · exact Or.inl (hbc1 ▸ hab)
  · exact Or.inl (by rw [hab1]; exact hbc)
  · exact Or.inr ⟨hab1.trans hbc1, le_trans hab2 hbc2⟩

instance : IsTotal (ℕ × String × ℕ) mcRel := by
  constructor
  intro a b
  rcases lt_trichotomy a.2.2 b.2.2 with h | h | h
  · exact Or.inr (Or.inl h)
  · rcases Nat.le_total a.1 b.1 with h1 | h1
    · exact Or.inl (Or.inr ⟨h, h1⟩)
    · exact Or.inr (Or.inr ⟨h.symm, h1⟩)
  · exact Or.inl (Or.inl h)

/-- `keyword_counts.most_common(20)` with its index decoration still attached
(the index pins down the first-encounter tie order). -/
def mostCommon20 (l : List String) : List (ℕ × (String × ℕ)) :=
  (List.insertionSort mcRel (counterItems l).enum).take 20

/-- Line 331: `dict(keyword_counts.most_common(20))`. -/
def topKeywords (data : List SentimentRecord) : List (String × ℕ) :=
  (mostCommon20 (allKeywords data)).map (·.2)

structure BasicStats where
  total_posts : ℕ
  sentiment_distribution : List (String × ℕ)
  sentiment_percentages : List (String × ℚ)
deriving DecidableEq

structure KeywordAnalysis where
  top_keywords : List (String × ℕ)
  total_unique_keywords : ℕ
deriving DecidableEq

/-- The dict returned by `aggregate_sentiment_data` for nonempty input
(lines 315-340).  The `temporal_analysis` and `language_analysis` entries
(timestamp-string bucketing and metadata language counting, lines 334-339)
are outside every claim and not modelled. -/
structure AggregationResult where
  basic_stats : BasicStats
  confidence_stats : List (String × ℝ)
  emotions_stats : List (String × List (String × ℝ))
  keyword_analysis : KeywordAnalysis

/-- `aggregate_sentiment_data` (lines 258-340).  `none` models the literal
`{}` dict returned for empty input (lines 262-263). -/
noncomputable def aggregate_sentiment_data (data : List SentimentRecord) (period : String) :
    Option AggregationResult :=
  if data.isEmpty then none
  else some {
    basic_stats := {
      total_posts := data.length
      sentiment_distribution := counterItems (sentiments data)
      sentiment_percentages := sentimentPercentages data }
    confidence_stats := confidenceStatsOf (confidences data)
    emotions_stats := emotionsStats data
    keyword_analysis := {
      top_keywords := topKeywords data
      total_unique_keywords := (counterItems (allKeywords data)).length } }

/-- One anomaly record (the dict literals of lines 411-440).  `value` and
`threshold` live in the reals because the low-confidence rule reads the
real-valued mean.  The float interpolation inside the low-confidence
description is abstracted to the fixed message text; no claim reads it. -/
structure Anomaly where
  type : String
  severity : String
  value : ℝ
  threshold : ℝ
  description : String

/-- `detect_anomalies` (lines 399-445): three independent threshold rules,
appended in source order. -/
noncomputable def detect_anomalies (aggregated : AggregationResult) (period : String) :
    List Anomaly :=
  let negative_pct : ℚ := (aggregated.basic_stats.sentiment_percentages.lookup "negative").getD 0
  let total_posts := aggregated.basic_stats.total_posts
  let mean_confidence : ℝ := (aggregated.confidence_stats.lookup "mean").getD 1
  (if negative_pct > 70 then
    [{ type := "high_negative_sentiment", severity := "high", value := (negative_pct : ℝ),
       threshold := 70,
       description := "異常に高いネガティブ感情: " ++ toString negative_pct ++ "%" }]
   else []) ++
  (if period = "hourly" ∧ total_posts > 1000 then
    [{ type := "volume_spike", severity := "medium", value := (total_posts : ℝ),
       threshold := 1000,
       description := "投稿量の急増: " ++ toString total_posts ++ "投稿/時間" }]
   else []) ++
  (if mean_confidence < 1 / 2 then
    [{ type := "low_confidence", severity := "medium", value := mean_confidence,
       threshold := 1 / 2, description := "分析信頼度の低下" }]
   else [])

structure SentimentTrend where
  current : ℚ
  historical_avg : ℚ
  change : ℚ
  trend : String
deriving DecidableEq

structure VolumeTrend where
  current : ℕ
  historical_avg : ℚ
  change : ℚ
  percentage_change : ℚ
deriving DecidableEq

structure TrendAnalysis where
  sentiment_trends : List (String × SentimentTrend)
  volume_trend : VolumeTrend
deriving DecidableEq

/-- `sentiment_percentages.get(s, 0)` on an aggregation result. -/
def sentimentPct (agg : AggregationResult) (s : String) : ℚ :=
  (agg.basic_stats.sentiment_percentages.lookup s).getD 0

/-- `analyze_trends` (lines 342-397).  The store read
`fetch_historical_summaries(period, 5)` becomes the `historical` parameter,
each element standing for one prior summary's `aggregated_data`.  `none`
models the `{}` returned when there is no history (the `if historical_data:`
guard never fires). -/
def analyze_trends (aggregated : AggregationResult) (historical : List AggregationResult) :
    Option TrendAnalysis :=
  if historical.isEmpty then none
  else
    let current_volume := aggregated.basic_stats.total_posts
    let historical_volumes : List ℚ := historical.map fun h => (h.basic_stats.total_posts : ℚ)
    let avg_historical_volume := meanQ historical_volumes
    let volume_change := (current_volume : ℚ) - avg_historical_volume
    some {
      sentiment_trends := ["positive", "negative", "neutral"].filterMap fun s =>
        let current_pct := sentimentPct aggregated s
        let historical_values := historical.map fun h => sentimentPct h s
        if historical_values.isEmpty then none
        else
          let avg_historical := meanQ historical_values
          let change := current_pct - avg_historical
          some (s, { current := current_pct, historical_avg := round2Q avg_historical,
                     change := round2Q change,
                     trend := if change > 5 then "increasing"
                              else if change < -5 then "decreasing" else "stable" })
      volume_trend := {
        current := current_volume
        historical_avg := round2Q avg_historical_volume
        change := round2Q volume_change
        percentage_change :=
          if avg_historical_volume > 0 then round2Q (volume_change / avg_historical_volume * 100)
          else 0 } }

structure Alert where
  type : String
  priority : String
  title : String
  details : Anomaly
  timestamp : String

/-- `generate_alerts` (lines 702-719): one alert per high-severity anomaly.
`trends` is accepted and ignored exactly as in the source; `now` stands for
`datetime.utcnow().isoformat()` at alert creation.  The description default
(`anomaly.get('description', 'Unknown anomaly')`) cannot fire here because
the embedded anomaly record always carries a description. -/
def generate_alerts (anomalies : List Anomaly) (trends : Option TrendAnalysis) (now : String) :
    List Alert :=
  anomalies.filterMap fun anomaly =>
    if anomaly.severity = "high" then
      some { type := "anomaly_alert", priority := "high",
             title := anomaly.description, details := anomaly, timestamp := now }
    else none

/-- Substring occurrence on character lists: `w` occurs iff it is a prefix of
some suffix of `l`. -/
def containsSub (l w : List Char) : Bool :=
  if w.isPrefixOf l then true
  else match l with
    | [] => false
    | _ :: t => containsSub t w

/-- Python `word in text` substring membership, on the character-list view. -/
def strContains (s w : String) : Bool := containsSub s.toList w.toList

/-- The fixed positive lexicon of `perform_keyword_based_sentiment` (line 283). -/
def positive_words : List String :=
  ["良い", "素晴らしい", "最高", "嬉しい", "楽しい", "感謝", "good", "great", "awesome", "happy"]

/-- The fixed negative lexicon of `perform_keyword_based_sentiment` (line 284). -/
def negative_words : List String :=
  ["悪い", "ひどい", "最悪", "悲しい", "怒り", "不満", "bad", "terrible", "awful", "sad", "angry"]

/-- `text.lower()`, character by character (ASCII case mapping; the fixed
lexicons contain no characters where Python and ASCII lowering differ). -/
def lowerString (s : String) : String := ⟨s.data.map Char.toLower⟩

/-- Line 288: `sum(1 for word in positive_words if word in text_lower)`. -/
def positiveCount (text : String) : ℕ :=
  (positive_words.filter fun w => strContains (lowerString text) w).length

/-- Line 289: `sum(1 for word in negative_words if word in text_lower)`. -/
def negativeCount (text : String) : ℕ :=
  (negative_words.filter fun w => strContains (lowerString text) w).length

structure KeywordSentiment where
  sentiment : String
  confidence : ℚ
  emotions : List (String × ℚ)
  reasoning : String
deriving DecidableEq

/-- The emotions dict of lines 304-311 (depends only on the chosen label). -/
def fallbackEmotions (sentiment : String) : List (String × ℚ) :=
  [("joy", if sentiment = "positive" then 0.7 else 0.2),
   ("anger", if sentiment = "negative" then 0.7 else 0.1),
   ("sadness", if sentiment = "negative" then 0.6 else 0.1),
   ("fear", 0.3),
   ("surprise", 0.2),
   ("disgust", if sentiment = "negative" then 0.5 else 0.1)]

/-- `perform_keyword_based_sentiment` (sentiment-analyzer lines 279-313), the
deterministic fallback returned by `call_bedrock_for_sentiment` whenever the
hosted call raises (lines 224-227). -/
def perform_keyword_based_sentiment (text : String) : KeywordSentiment :=
  let positive_count := positiveCount text
  let negative_count := negativeCount text
  if positive_count > negative_count then
    { sentiment := "positive",
      confidence := min 0.8 (0.5 + ((positive_count : ℚ) - (negative_count : ℚ)) * 0.1),
      emotions := fallbackEmotions "positive",
      reasoning := "Keyword-based analysis (fallback method)" }
  else if negative_count > positive_count then
    { sentiment := "negative",
      confidence := min 0.8 (0.5 + ((negative_count : ℚ) - (positive_count : ℚ)) * 0.1),
      emotions := fallbackEmotions "negative",
      reasoning := "Keyword-based analysis (fallback method)" }
  else
    { sentiment := "neutral", confidence := 0.5,
      emotions := fallbackEmotions "neutral",
      reasoning := "Keyword-based analysis (fallback method)" }

/-- `parse_fallback_response` (sentiment-analyzer lines 315-341): the fallback
used when the model response contains no extractable JSON object; it pattern
matches the response text itself. -/
def parse_fallback_response (content : String) : KeywordSentiment :=
  let content_lower := lowerString content
  { sentiment :=
      if strContains content_lower "positive" then "positive"
      else if strContains content_lower "negative" then "negative"
      else "neutral",
    confidence := 0.5,
    emotions := [("joy", 0.5), ("anger", 0.3), ("sadness", 0.3), ("fear", 0.2),
      ("surprise", 0.2), ("disgust", 0.2)],
    reasoning := "Fallback parsing from Bedrock response" }

/-- How `call_bedrock_for_sentiment` (lines 163-227) leaves its try block:
the SDK call or response handling raised (transport failure); the response
text contained no JSON object, so the regex search found nothing; the
extracted JSON object failed to decode, raising inside the try (caught by
the same handler as a transport failure); or a result dict was parsed. -/
inductive BedrockOutcome where
  | transportFailure
  | noJsonInContent (content : String)
  | jsonDecodeFailure
  | parsed (result : KeywordSentiment)

/-- `call_bedrock_for_sentiment` as a function of the call outcome: the
except path of lines 224-227 yields the keyword heuristic, the else branch
of lines 220-222 yields `parse_fallback_response`. -/
def call_bedrock_for_sentiment (outcome : BedrockOutcome) (text : String) :
    KeywordSentiment :=
  match outcome with
  | .transportFailure => perform_keyword_based_sentiment text
  | .jsonDecodeFailure => perform_keyword_based_sentiment text
  | .noJsonInContent content => parse_fallback_response content
  | .parsed result => result

/-! ## Concrete aggregation results used by the claim instances -/

/-- Aggregation result with negative percentage 71, five posts, mean
confidence 0.8 (`detect_anomalies` reads only these entries). -/
noncomputable def aggNeg71Small : AggregationResult := {
  basic_stats := {
    total_posts := 5
    sentiment_distribution := [("negative", 4), ("positive", 1)]
    sentiment_percentages := [("negative", 71), ("positive", 29)] }
  confidence_stats := [("mean", (0.8 : ℝ)), ("median", (0.8 : ℝ)), ("std", 0)]
  emotions_stats := []
  keyword_analysis := { top_keywords := [], total_unique_keywords := 0 } }

/-- Aggregation result with negative percentage 71 and 1500 posts. -/
noncomputable def aggNeg71Large : AggregationResult := {
  basic_stats := {
    total_posts := 1500
    sentiment_distribution := [("negative", 1065), ("positive", 435)]
    sentiment_percentages := [("negative", 71), ("positive", 29)] }
  confidence_stats := [("mean", (0.8 : ℝ)), ("median", (0.8 : ℝ)), ("std", 0)]
  emotions_stats := []
  keyword_analysis := { top_keywords := [], total_unique_keywords := 0 } }

/-- Aggregation result whose positive percentage is 50. -/
noncomputable def aggPos50 : AggregationResult := {
  basic_stats := {
    total_posts := 10
    sentiment_distribution := [("positive", 5), ("negative", 5)]
    sentiment_percentages := [("positive", 50), ("negative", 50)] }
  confidence_stats := [("mean", (0.9 : ℝ)), ("median", (0.9 : ℝ)), ("std", 0)]
  emotions_stats := []
  keyword_analysis := { top_keywords := [], total_unique_keywords := 0 } }

/-- Prior aggregation result whose positive percentage is 40. -/
noncomputable def aggPos40 : AggregationResult := {
  basic_stats := {
    total_posts := 10
    sentiment_distribution := [("positive", 4), ("negative", 6)]
    sentiment_percentages := [("positive", 40), ("negative", 60)] }
  confidence_stats := [("mean", (0.9 : ℝ)), ("median", (0.9 : ℝ)), ("std", 0)]
  emotions_stats := []
  keyword_analysis := { top_keywords := [], total_unique_keywords := 0 } }

/-- A single record carrying confidence 0.9 and nothing else. -/
def recConf09 : SentimentRecord :=
  { sentiment := "positive", confidence := some 0.9, emotions := [], keywords := [] }

/-- A record labelled positive with no other attributes. -/
def recPos : SentimentRecord :=
  { sentiment := "positive", confidence := none, emotions := [], keywords := [] }

/-- A record labelled negative with no other attributes. -/
def recNeg : SentimentRecord :=
  { sentiment := "negative", confidence := none, emotions := [], keywords := [] }

/-- Fallback value used only to read an optional aggregation result. -/
def defaultAggregation : AggregationResult :=
  { basic_stats := { total_posts := 0, sentiment_distribution := [], sentiment_percentages := [] }
    confidence_stats := []
    emotions_stats := []
    keyword_analysis := { top_keywords := [], total_unique_keywords := 0 } }

/-! ## Claim theorems -/

/-- C8: calling `aggregate_sentiment_data` on an empty input sequence
short-circuits (lines 262-263) and returns the defined empty result — the
literal `{}` dict, modelled as `none` — without raising, for every period. -/
theorem C8_empty_input_empty_result :
    ∀ period : String, aggregate_sentiment_data [] period = none :=
  fun _ => rfl

/-- C4: `generate_alerts` emits exactly one alert per anomaly of severity
`high` — wrapping the anomaly description as the title and the creation
timestamp — and never alerts on lower severities; in particular a list of
one high-severity and one medium-severity anomaly yields exactly one alert. -/
theorem C4_generate_alerts_high_only :
    (∀ (anomalies : List Anomaly) (trends : Option TrendAnalysis) (now : String),
      generate_alerts anomalies trends now =
        (anomalies.filter fun a => a.severity == "high").map fun a =>
          { type := "anomaly_alert", priority := "high", title := a.description,
            details := a, timestamp := now }) ∧
    (generate_alerts
        [{ type := "high_negative_sentiment", severity := "high", value := 71, threshold := 70,
           description := "high negative" },
         { type := "volume_spike", severity := "medium", value := 1500, threshold := 1000,
           description := "volume spike" }] none "2024-01-01T00:00:00").length = 1 := by
  constructor
  · intro anomalies trends now
    induction anomalies with
    | nil => rfl
    | cons a rest ih =>
      by_cases h : a.severity = "high" <;>
        simp [generate_alerts, List.filter_cons, h] at ih ⊢ <;> exact ih
  · simp [generate_alerts, List.filterMap]

/-- C9 counterexample: a model response with no extractable JSON object is a
parse failure, yet the result then comes from `parse_fallback_response`, not
from the keyword-lexicon heuristic: on the text "good" the heuristic says
positive at 0.6 while the no-JSON fallback says neutral at 0.5. -/
theorem C9_counterexample :
    call_bedrock_for_sentiment (BedrockOutcome.noJsonInContent "the model replied in prose")
        "good" ≠ perform_keyword_based_sentiment "good" ∧
    (call_bedrock_for_sentiment (BedrockOutcome.noJsonInContent "the model replied in prose")
        "good").sentiment = "neutral" ∧
    (perform_keyword_based_sentiment "good").sentiment = "positive" ∧
    (call_bedrock_for_sentiment (BedrockOutcome.noJsonInContent "the model replied in prose")
        "good").confidence = 0.5 := by
  refine ⟨?_, by decide, by decide, rfl⟩
  intro h
  have h2 := congrArg KeywordSentiment.sentiment h
  revert h2
  decide

/-- C9 (amended): transport failures and JSON-decode failures fall back to
the keyword-lexicon heuristic — label from the lexicon list with the
strictly larger hit count, confidence `min(0.8, 0.5 + 0.1 × difference)`,
ties neutral at 0.5, confidence always within [0.5, 0.8] — while a response
without an extractable JSON object falls back to `parse_fallback_response`
at confidence 0.5; no failure path raises. -/
theorem C9_keyword_fallback_heuristic :
    (∀ (text content : String),
      call_bedrock_for_sentiment BedrockOutcome.transportFailure text =
        perform_keyword_based_sentiment text ∧
      call_bedrock_for_sentiment BedrockOutcome.jsonDecodeFailure text =
        perform_keyword_based_sentiment text ∧
      call_bedrock_for_sentiment (BedrockOutcome.noJsonInContent content) text =
        parse_fallback_response content ∧
      (parse_fallback_response content).confidence = 0.5) ∧
    ∀ text : String,
      ((perform_keyword_based_sentiment text).sentiment = "positive" ↔
        negativeCount text < positiveCount text) ∧
      ((perform_keyword_based_sentiment text).sentiment = "negative" ↔
        positiveCount text < negativeCount text) ∧
      ((perform_keyword_based_sentiment text).sentiment = "neutral" ↔
        positiveCount text = negativeCount text) ∧
      (negativeCount text < positiveCount text →
        (perform_keyword_based_sentiment text).confidence =
          min 0.8 (0.5 + ((positiveCount text : ℚ) - (negativeCount text : ℚ)) * 0.1)) ∧
      (positiveCount text < negativeCount text →
        (perform_keyword_based_sentiment text).confidence =
          min 0.8 (0.5 + ((negativeCount text : ℚ) - (positiveCount text : ℚ)) * 0.1)) ∧
      (positiveCount text = negativeCount text →
        (perform_keyword_based_sentiment text).confidence = 0.5) ∧
      0.5 ≤ (perform_keyword_based_sentiment text).confidence ∧
      (perform_keyword_based_sentiment text).confidence ≤ 0.8 := by
  refine ⟨fun _ _ => ⟨rfl, rfl, rfl, rfl⟩, ?_⟩
  intro text
  rcases lt_trichotomy (positiveCount text) (negativeCount text) with hlt | heq | hgt
  · have hone : (1 : ℚ) ≤ (negativeCount text : ℚ) - (positiveCount text : ℚ) := by
      have h1 : (positiveCount text + 1 : ℚ) ≤ (negativeCount text : ℚ) := by exact_mod_cast hlt
      linarith
    have hres : perform_keyword_based_sentiment text =
        { sentiment := "negative",
          confidence := min 0.8 (0.5 + ((negativeCount text : ℚ) - (positiveCount text : ℚ)) * 0.1),
          emotions := fallbackEmotions "negative",
          reasoning := "Keyword-based analysis (fallback method)" } := by
      simp [perform_keyword_based_sentiment, hlt, lt_asymm hlt]
    rw [hres]
    have hmul : (0 : ℚ) ≤ ((negativeCount text : ℚ) - (positiveCount text : ℚ)) * 0.1 := by
      have := mul_le_mul_of_nonneg_right hone (by norm_num : (0:ℚ) ≤ 0.1)
      linarith
    exact ⟨iff_of_false (by decide : ¬ (("negative" : String) = "positive")) (by omega),
      iff_of_true rfl hlt,
      iff_of_false (by decide : ¬ (("negative" : String) = "neutral")) (by omega),
      fun h => absurd h (by omega), fun _ => rfl, fun h => absurd h (by omega),
      le_min (by norm_num) (by linarith), min_le_left _ _⟩
  · have hres : perform_keyword_based_sentiment text =
        { sentiment := "neutral", confidence := 0.5,
          emotions := fallbackEmotions "neutral",
          reasoning := "Keyword-based analysis (fallback method)" } := by
      simp [perform_keyword_based_sentiment, heq]
    rw [hres]
    exact ⟨iff_of_false (by decide : ¬ (("neutral" : String) = "positive")) (by omega),
      iff_of_false (by decide : ¬ (("neutral" : String) = "negative")) (by omega),
      iff_of_true rfl heq,
      fun h => absurd h (by omega), fun h => absurd h (by omega), fun _ => rfl,
      by norm_num, by norm_num⟩
  · have hone : (1 : ℚ) ≤ (positiveCount text : ℚ) - (negativeCount text : ℚ) := by
      have h1 : (negativeCount text + 1 : ℚ) ≤ (positiveCount text : ℚ) := by exact_mod_cast hgt
      linarith
    have hres : perform_keyword_based_sentiment text =
        { sentiment := "positive",
          confidence := min 0.8 (0.5 + ((positiveCount text : ℚ) - (negativeCount text : ℚ)) * 0.1),
          emotions := fallbackEmotions "positive",
          reasoning := "Keyword-based analysis (fallback method)" } := by
      simp [perform_keyword_based_sentiment, hgt]
    rw [hres]
    have hmul : (0 : ℚ) ≤ ((positiveCount text : ℚ) - (negativeCount text : ℚ)) * 0.1 := by
      have := mul_le_mul_of_nonneg_right hone (by norm_num : (0:ℚ) ≤ 0.1)
      linarith
    exact ⟨iff_of_true rfl hgt,
      iff_of_false (by decide : ¬ (("positive" : String) = "negative")) (by omega),
      iff_of_false (by decide : ¬ (("positive" : String) = "neutral")) (by omega),
      fun _ => rfl, fun h => absurd h (by omega), fun h => absurd h (by omega),
      le_min (by norm_num) (by linarith), min_le_left _ _⟩

/-- C1: `detect_anomalies` evaluates all three threshold rules independently,
emitting one anomaly per satisfied rule — `high_negative_sentiment`
(severity high) iff negative percentage exceeds 70, `volume_spike`
(severity medium) iff the period is hourly and total posts exceed 1000, and
`low_confidence` (severity medium) iff the mean confidence is below 0.5;
negative 71 with 5 posts yields exactly one high anomaly, and negative 71,
hourly, 1500 posts yields exactly those two anomalies. -/
theorem C1_detect_anomalies_rules :
    (∀ (agg : AggregationResult) (period : String),
      ((detect_anomalies agg period).countP (fun a => a.type == "high_negative_sentiment") =
        if 70 < sentimentPct agg "negative" then 1 else 0) ∧
      ((detect_anomalies agg period).countP (fun a => a.type == "volume_spike") =
        if period = "hourly" ∧ 1000 < agg.basic_stats.total_posts then 1 else 0) ∧
      ((detect_anomalies agg period).countP (fun a => a.type == "low_confidence") =
        if ((agg.confidence_stats.lookup "mean").getD 1 : ℝ) < 1 / 2 then 1 else 0) ∧
      (∀ a ∈ detect_anomalies agg period,
        (a.type = "high_negative_sentiment" ∧ a.severity = "high") ∨
        (a.type = "volume_spike" ∧ a.severity = "medium") ∨
        (a.type = "low_confidence" ∧ a.severity = "medium"))) ∧
    (detect_anomalies aggNeg71Small "hourly").map (fun a => (a.type, a.severity)) =
      [("high_negative_sentiment", "high")] ∧
    (detect_anomalies aggNeg71Large "hourly").map (fun a => (a.type, a.severity)) =
      [("high_negative_sentiment", "high"), ("volume_spike", "medium")] := by
  refine ⟨?_, ?_, ?_⟩
  · intro agg period
    simp only [detect_anomalies, sentimentPct]
    refine ⟨?_, ?_, ?_, ?_⟩ <;> split_ifs with h1 h2 h3 <;>
      simp [List.countP_append, List.countP_cons, List.countP_nil]
  · have h1 : (70 : ℚ) <
        ((aggNeg71Small.basic_stats.sentiment_percentages.lookup "negative").getD 0 : ℚ) := by
      norm_num [aggNeg71Small, List.lookup]
    have h3 : ¬ (((aggNeg71Small.confidence_stats.lookup "mean").getD 1 : ℝ) < 1 / 2) := by
      norm_num [aggNeg71Small, List.lookup]
    simp only [detect_anomalies]
    rw [if_pos h1,
      if_neg (show ¬ (True ∧ aggNeg71Small.basic_stats.total_posts > 1000) by
        norm_num [aggNeg71Small]),
      if_neg h3]
    rfl
  · have h1 : (70 : ℚ) <
        ((aggNeg71Large.basic_stats.sentiment_percentages.lookup "negative").getD 0 : ℚ) := by
      norm_num [aggNeg71Large, List.lookup]
    have h3 : ¬ (((aggNeg71Large.confidence_stats.lookup "mean").getD 1 : ℝ) < 1 / 2) := by
      norm_num [aggNeg71Large, List.lookup]
    simp only [detect_anomalies]
    rw [if_pos h1,
      if_pos (show True ∧ aggNeg71Large.basic_stats.total_posts > 1000 from
        ⟨trivial, by norm_num [aggNeg71Large]⟩),
      if_neg h3]
    rfl

/-- Witness for C1: the rule characterisation applied to the concrete result
with negative 71, five posts, mean confidence 0.8 produces count one for the
high-negative rule. -/
theorem C1_witness :
    (detect_anomalies aggNeg71Small "hourly").countP
      (fun a => a.type == "high_negative_sentiment") = 1 := by
  have h := (C1_detect_anomalies_rules.1 aggNeg71Small "hourly").1
  rw [h, if_pos (by norm_num [sentimentPct, aggNeg71Small])]

/-- C3: with at least one prior result, `analyze_trends` computes for each
sentiment label the historical average percentage, the delta current minus
historical average, and a direction — increasing iff delta exceeds 5
percentage points, decreasing iff delta is below −5, else stable (current
positive 50 against historical average 40 gives delta 10 and increasing);
with zero prior results it returns the empty trends mapping, not an error. -/
theorem C3_trend_analysis :
    (∀ agg : AggregationResult, analyze_trends agg [] = none) ∧
    (∀ (agg : AggregationResult) (historical : List AggregationResult),
      historical ≠ [] →
      ∃ ta, analyze_trends agg historical = some ta ∧
        ∀ s ∈ (["positive", "negative", "neutral"] : List String),
          (s, SentimentTrend.mk (sentimentPct agg s)
                (round2Q (meanQ (historical.map fun h => sentimentPct h s)))
                (round2Q (sentimentPct agg s - meanQ (historical.map fun h => sentimentPct h s)))
                (if 5 < sentimentPct agg s - meanQ (historical.map fun h => sentimentPct h s)
                 then "increasing"
                 else if sentimentPct agg s - meanQ (historical.map fun h => sentimentPct h s) < -5
                 then "decreasing"
                 else "stable")) ∈ ta.sentiment_trends) ∧
    (∃ ta, analyze_trends aggPos50 [aggPos40] = some ta ∧
      ("positive", SentimentTrend.mk 50 40 10 "increasing") ∈ ta.sentiment_trends) := by
  refine ⟨fun agg => rfl, ?_, ?_⟩
  · intro agg historical hne
    have hie : historical.isEmpty = false := by
      simpa [List.isEmpty_iff] using hne
    rw [analyze_trends, if_neg (by simp [hie])]
    refine ⟨_, rfl, ?_⟩
    intro s hs
    have hmaps : (historical.map fun h => sentimentPct h s).isEmpty = false := by
      simp [List.isEmpty_iff, hne]
    refine List.mem_filterMap.2 ⟨s, hs, ?_⟩
    rw [if_neg (by simp [hmaps])]
  · refine ⟨_, rfl, ?_⟩
    have hpos : sentimentPct aggPos50 "positive" = 50 := by
      norm_num [sentimentPct, aggPos50, List.lookup]
    have hpos40 : sentimentPct aggPos40 "positive" = 40 := by
      norm_num [sentimentPct, aggPos40, List.lookup]
    refine List.mem_filterMap.2 ⟨"positive", by simp, ?_⟩
    rw [if_neg (by simp)]
    have hmean : meanQ [sentimentPct aggPos40 "positive"] = 40 := by
      rw [hpos40]; norm_num [meanQ]
    simp only [List.map_cons, List.map_nil, hmean, hpos]
    have h40 : round2Q 40 = 40 := by
      rw [round2Q, roundHalfEven, if_neg (by norm_num [Int.fract])]
      norm_num [round_eq]
    have h10 : round2Q (50 - 40 : ℚ) = 10 := by
      rw [round2Q, roundHalfEven, if_neg (by norm_num [Int.fract])]
      norm_num [round_eq]
    rw [h40, h10, if_pos (by norm_num)]

/-- Witness for C3: the nonempty-history branch applied at the concrete pair
of results (current positive 50, one prior at positive 40). -/
theorem C3_witness :
    (([aggPos40] : List AggregationResult) ≠ []) ∧
    analyze_trends aggPos50 [aggPos40] ≠ none := by
  obtain ⟨ta, hta, hmem⟩ :=
    C3_trend_analysis.2.1 aggPos50 [aggPos40] (List.cons_ne_nil _ _)
  exact ⟨List.cons_ne_nil _ _, by rw [hta]; exact Option.some_ne_none _⟩

/-- Records whose confidence field is falsy contribute nothing to the
confidence series. -/
theorem confidences_nil_of_falsy (data : List SentimentRecord)
    (h : ∀ r ∈ data, r.confidence = none ∨ r.confidence = some 0) :
    confidences data = [] := by
  rw [confidences]
  have hflt : data.filter (fun item => confTruthy item.confidence) = [] := by
    rw [List.filter_eq_nil_iff]
    intro a ha
    rcases h a ha with hr | hr <;> simp [confTruthy, hr]
  rw [hflt]
  rfl

/-- C6 counterexample: a record carrying the numeric confidence value 0 is
not included in the confidence series — the truthiness filter of line 270
drops it — so at this two-record input the series keeps only the nonzero
0.5 and the claimed inclusion of the 0-confidence record fails. -/
theorem C6_counterexample :
    confidences
        [{ sentiment := "neutral", confidence := some 0, emotions := [], keywords := [] },
         { sentiment := "neutral", confidence := some 0.5, emotions := [], keywords := [] }] =
      [0.5] ∧
    (0 : ℚ) ∉ confidences
        [{ sentiment := "neutral", confidence := some 0, emotions := [], keywords := [] },
         { sentiment := "neutral", confidence := some 0.5, emotions := [], keywords := [] }] := by
  constructor <;> norm_num [confidences, confTruthy, List.filter]

/-- C6 (amended): confidence and emotion statistics draw only on the records
that carry a numeric value for the respective field; a record missing the
confidence field — or, unlike the claim states, carrying the falsy value
0 — is excluded from the confidence series without affecting any emotion
series, and every record with nonzero numeric confidence is included. -/
theorem C6_series_selection :
    ∀ (r : SentimentRecord) (data : List SentimentRecord),
      (r.confidence = none → confidences (r :: data) = confidences data) ∧
      (r.confidence = some 0 → confidences (r :: data) = confidences data) ∧
      (∀ c : ℚ, r.confidence = some c → c ≠ 0 →
        confidences (r :: data) = c :: confidences data) ∧
      (∀ e : String, emotionScores e (r :: data) =
        ((r.emotions.filter fun p => p.1 == e).map (·.2)) ++ emotionScores e data) := by
  intro r data
  refine ⟨?_, ?_, ?_, ?_⟩
  · intro h; simp [confidences, List.filter_cons, confTruthy, h]
  · intro h; simp [confidences, List.filter_cons, confTruthy, h]
  · intro c h hc; simp [confidences, List.filter_cons, confTruthy, h, hc]
  · intro e; simp [emotionScores]

/-- Witness for C6 at a record with confidence 0.7 and a joy score: the
record joins the confidence series and its emotion entry joins the joy
series. -/
theorem C6_witness :
    confidences
        [{ sentiment := "neutral", confidence := some 0.7, emotions := [("joy", 0.2)],
           keywords := [] }] = [(0.7 : ℚ)] ∧
    emotionScores "joy"
        [{ sentiment := "neutral", confidence := some 0.7, emotions := [("joy", 0.2)],
           keywords := [] }] = [(0.2 : ℚ)] := by
  constructor
  · have h := (C6_series_selection
      { sentiment := "neutral", confidence := some 0.7, emotions := [("joy", 0.2)],
        keywords := [] } []).2.2.1 0.7 rfl (by norm_num)
    rw [h]
    rfl
  · have h := (C6_series_selection
      { sentiment := "neutral", confidence := some 0.7, emotions := [("joy", 0.2)],
        keywords := [] } []).2.2.2 "joy"
    rw [h]
    rfl

/-- C10: for a non-empty record list in which no record carries a nonzero
confidence value, aggregation reports confidence mean 0 (the zero-sample
default of line 325) and anomaly detection on that result emits a
`low_confidence` anomaly of severity medium — at the detection interface the
zero-sample default is indistinguishable from genuinely low confidence. -/
theorem C10_zero_confidence_low_confidence_anomaly :
    ∀ (data : List SentimentRecord) (period : String) (res : AggregationResult),
      (∀ r ∈ data, r.confidence = none ∨ r.confidence = some 0) →
      aggregate_sentiment_data data period = some res →
      ("mean", (0 : ℝ)) ∈ res.confidence_stats ∧
      ∃ a ∈ detect_anomalies res period,
        a.type = "low_confidence" ∧ a.severity = "medium" := by
  intro data period res hall hagg
  have hconf : confidences data = [] := confidences_nil_of_falsy data hall
  cases data with
  | nil => simp [aggregate_sentiment_data] at hagg
  | cons r rest =>
    rw [aggregate_sentiment_data] at hagg
    simp only [List.isEmpty_cons, Bool.false_eq_true, if_false, Option.some_inj] at hagg
    have hcs : res.confidence_stats = confidenceStatsOf [] := by
      rw [← hagg, ← hconf]
    have hmean : ((res.confidence_stats.lookup "mean").getD 1 : ℝ) = 0 := by
      rw [hcs]; simp [confidenceStatsOf, List.lookup]
    constructor
    · rw [hcs]; simp [confidenceStatsOf]
    · simp only [detect_anomalies]
      rw [if_pos (show ((res.confidence_stats.lookup "mean").getD 1 : ℝ) < 1 / 2 by
        rw [hmean]; norm_num)]
      refine ⟨{ type := "low_confidence", severity := "medium",
                value := (res.confidence_stats.lookup "mean").getD 1,
                threshold := 1 / 2, description := "分析信頼度の低下" }, ?_, rfl, rfl⟩
      exact List.mem_append_right _ (List.mem_cons_self _ _)

/-- Witness for C10: two records, one with no confidence field and one with
confidence 0, produce a mean entry of 0. -/
theorem C10_witness :
    (∀ r ∈ ([{ sentiment := "neutral", confidence := none, emotions := [], keywords := [] },
             { sentiment := "neutral", confidence := some 0, emotions := [], keywords := [] }] :
        List SentimentRecord), r.confidence = none ∨ r.confidence = some 0) ∧
    ("mean", (0 : ℝ)) ∈
      ((aggregate_sentiment_data
          [{ sentiment := "neutral", confidence := none, emotions := [], keywords := [] },
           { sentiment := "neutral", confidence := some 0, emotions := [], keywords := [] }]
          "hourly").getD defaultAggregation).confidence_stats := by
  have hyp : ∀ r ∈ ([{ sentiment := "neutral", confidence := none, emotions := [], keywords := [] },
      { sentiment := "neutral", confidence := some 0, emotions := [], keywords := [] }] :
        List SentimentRecord), r.confidence = none ∨ r.confidence = some 0 := by
    intro r hr
    rcases List.mem_cons.1 hr with h | h
    · exact Or.inl (by rw [h])
    · rcases List.mem_cons.1 h with h2 | h2
      · exact Or.inr (by rw [h2])
      · exact absurd h2 (List.not_mem_nil r)
  exact ⟨hyp,
    (C10_zero_confidence_low_confidence_anomaly _ "hourly" _ hyp rfl).1⟩

/-- C5 counterexample: aggregating one record with confidence 0.9 yields a
confidence stats block whose keys are exactly mean, median and std — the
claimed min and max entries are absent. -/
theorem C5_counterexample :
    match aggregate_sentiment_data [recConf09] "hourly" with
    | none => False
    | some res =>
        "min" ∉ res.confidence_stats.map Prod.fst ∧
        "max" ∉ res.confidence_stats.map Prod.fst := by
  show "min" ∉ (confidenceStatsOf (confidences [recConf09])).map Prod.fst ∧
       "max" ∉ (confidenceStatsOf (confidences [recConf09])).map Prod.fst
  constructor <;> simp [confidenceStatsOf]

/-- C5 (amended): `confidence_stats` reports mean, median and stdev (min and
max are reported only in the per-emotion blocks of `emotions_stats`, which
carry all five); the stdev of a one-element series is 0 rather than
undefined, a zero-sample confidence series gets the zero default block, and
each emotion block is the five-entry stats block of its series. -/
theorem C5_stats_blocks :
    ∀ (data : List SentimentRecord) (period : String) (res : AggregationResult),
      aggregate_sentiment_data data period = some res →
      (res.confidence_stats.map Prod.fst = ["mean", "median", "std"] ∧
       (confidences data ≠ [] →
         ("mean", ((meanQ (confidences data) : ℚ) : ℝ)) ∈ res.confidence_stats ∧
         ("median", ((medianQ (confidences data) : ℚ) : ℝ)) ∈ res.confidence_stats) ∧
       ((confidences data).length = 1 → ("std", (0 : ℝ)) ∈ res.confidence_stats) ∧
       (1 < (confidences data).length →
         ("std", stdevR (confidences data)) ∈ res.confidence_stats) ∧
       (confidences data = [] →
         res.confidence_stats = [("mean", 0), ("median", 0), ("std", 0)]) ∧
       (∀ e block, (e, block) ∈ res.emotions_stats →
         block = statsBlock5 (emotionScores e data) ∧
         block.map Prod.fst = ["mean", "median", "std", "min", "max"] ∧
         ((emotionScores e data).length = 1 → ("std", (0 : ℝ)) ∈ block))) := by
  intro data period res hagg
  cases data with
  | nil => simp [aggregate_sentiment_data] at hagg
  | cons r rest =>
    rw [aggregate_sentiment_data] at hagg
    simp only [List.isEmpty_cons, Bool.false_eq_true, if_false, Option.some_inj] at hagg
    have hcs : res.confidence_stats = confidenceStatsOf (confidences (r :: rest)) := by
      rw [← hagg]
    have hes : res.emotions_stats = emotionsStats (r :: rest) := by
      rw [← hagg]
    refine ⟨?_, ?_, ?_, ?_, ?_, ?_⟩
    · rw [hcs]; simp [confidenceStatsOf]
    · intro hne
      rw [hcs]
      have hie : (confidences (r :: rest)).isEmpty = false := by
        simpa [List.isEmpty_iff] using hne
      simp [confidenceStatsOf, hie]
    · intro hlen
      rw [hcs]
      simp [confidenceStatsOf, hlen]
    · intro hlen
      rw [hcs]
      simp [confidenceStatsOf, hlen]
    · intro hnil
      rw [hcs, hnil]
      rfl
    · intro e block hmem
      rw [hes] at hmem
      obtain ⟨ek, hek, heq⟩ := List.mem_filterMap.1 hmem
      by_cases hie : (emotionScores ek (r :: rest)).isEmpty
      · rw [if_pos hie] at heq
        exact absurd heq (by simp)
      · rw [if_neg hie] at heq
        have hpair := Option.some_inj.1 heq
        have hek2 : ek = e := congrArg Prod.fst hpair
        subst hek2
        have hblock : block = statsBlock5 (emotionScores ek (r :: rest)) :=
          (congrArg Prod.snd hpair).symm
        refine ⟨hblock, ?_, ?_⟩
        · rw [hblock]; simp [statsBlock5]
        · intro hlen
          rw [hblock]
          simp [statsBlock5, hlen]

/-- Witness for C5: aggregating the single record with confidence 0.9 gives
a confidence block whose mean entry is 0.9 and whose std entry is 0. -/
theorem C5_witness :
    aggregate_sentiment_data [recConf09] "hourly" ≠ none ∧
    ("mean", ((0.9 : ℚ) : ℝ)) ∈
      ((aggregate_sentiment_data [recConf09] "hourly").getD defaultAggregation).confidence_stats ∧
    ("std", (0 : ℝ)) ∈
      ((aggregate_sentiment_data [recConf09] "hourly").getD defaultAggregation).confidence_stats := by
  have hc : confidences [recConf09] = [(0.9 : ℚ)] := by
    norm_num [confidences, confTruthy, List.filter, recConf09]
  have h := C5_stats_blocks [recConf09] "hourly"
    ((aggregate_sentiment_data [recConf09] "hourly").getD defaultAggregation) rfl
  have hmean := (h.2.1 (by rw [hc]; exact List.cons_ne_nil _ _)).1
  have hstd := h.2.2.1 (by rw [hc]; rfl)
  have hmv : meanQ (confidences [recConf09]) = (0.9 : ℚ) := by
    rw [hc]; norm_num [meanQ]
  rw [hmv] at hmean
  exact ⟨Option.some_ne_none _, hmean, hstd⟩

/-! ## Counter and rounding lemmas -/

theorem firstOccs_nodup {α : Type} [DecidableEq α] (l : List α) : (firstOccs l).Nodup := by
  rw [firstOccs]
  exact List.nodup_reverse.2 (List.nodup_dedup _)

theorem mem_firstOccs {α : Type} [DecidableEq α] {a : α} {l : List α} :
    a ∈ firstOccs l ↔ a ∈ l := by
  rw [firstOccs]
  simp [List.mem_reverse, List.mem_dedup]

theorem firstOccs_perm_dedup {α : Type} [DecidableEq α] (l : List α) :
    List.Perm (firstOccs l) l.dedup :=
  (List.perm_ext_iff_of_nodup (firstOccs_nodup l) (List.nodup_dedup l)).2
    fun a => by rw [mem_firstOccs, List.mem_dedup]

/-- The counts over the distinct keys sum to the length of the list. -/
theorem sum_counts_firstOccs {α : Type} [DecidableEq α] (l : List α) :
    ((firstOccs l).map fun k => l.count k).sum = l.length := by
  rw [List.Perm.sum_eq (List.Perm.map _ (firstOccs_perm_dedup l))]
  exact List.sum_map_count_dedup_eq_length l

theorem abs_roundHalfEven_sub (q : ℚ) : |(roundHalfEven q : ℚ) - q| ≤ 1 / 2 := by
  rw [roundHalfEven]
  by_cases h : Int.fract q = 1 / 2
  · rw [if_pos h]
    have hf : q - (⌊q⌋ : ℚ) = 1 / 2 := by
      rw [Int.fract] at h
      exact h
    by_cases h2 : ⌊q⌋ % 2 = 0
    · rw [if_pos h2]
      have he : (⌊q⌋ : ℚ) - q = -(1 / 2) := by linarith
      rw [he, abs_neg, abs_of_nonneg (by norm_num : (0:ℚ) ≤ 1 / 2)]
    · rw [if_neg h2]
      push_cast
      have he : ((⌊q⌋ : ℚ) + 1) - q = 1 / 2 := by linarith
      rw [he, abs_of_nonneg (by norm_num : (0:ℚ) ≤ 1 / 2)]
  · rw [if_neg h]
    have h2 := abs_sub_round q
    rwa [abs_sub_comm] at h2

theorem abs_round2Q_sub (q : ℚ) : |round2Q q - q| ≤ 1 / 200 := by
  rw [round2Q]
  have h := abs_roundHalfEven_sub (q * 100)
  rw [show (roundHalfEven (q * 100) : ℚ) / 100 - q =
    ((roundHalfEven (q * 100) : ℚ) - q * 100) / 100 by ring]
  rw [abs_div, abs_of_nonneg (by norm_num : (0:ℚ) ≤ 100)]
  linarith

theorem abs_list_sum_le {α : Type} (l : List α) (f : α → ℚ) :
    |(l.map f).sum| ≤ (l.map fun a => |f a|).sum := by
  induction l with
  | nil => simp
  | cons a t ih =>
    simp only [List.map_cons, List.sum_cons]
    exact (abs_add _ _).trans (by linarith)

theorem sum_abs_le_card {α : Type} (l : List α) (f : α → ℚ) (c : ℚ)
    (h : ∀ x ∈ l, |f x| ≤ c) :
    (l.map fun a => |f a|).sum ≤ (l.length : ℚ) * c := by
  induction l with
  | nil => simp
  | cons a t ih =>
    have ha := h a (List.mem_cons_self a t)
    have ht := ih fun x hx => h x (List.mem_cons_of_mem a hx)
    simp only [List.map_cons, List.sum_cons, List.length_cons]
    push_cast
    linarith

theorem sum_map_sub {α : Type} (l : List α) (f g : α → ℚ) :
    (l.map f).sum - (l.map g).sum = (l.map fun x => f x - g x).sum := by
  induction l with
  | nil => simp
  | cons a t ih =>
    simp only [List.map_cons, List.sum_cons]
    linarith

theorem sum_map_div_mul {α : Type} (l : List α) (f : α → ℚ) (n : ℚ) :
    (l.map fun k => f k / n * 100).sum = (l.map f).sum / n * 100 := by
  induction l with
  | nil => simp
  | cons a t ih =>
    simp only [List.map_cons, List.sum_cons, ih]
    ring

/-- C2: for nonempty input (of records carrying the data-model sentiment
labels), `basic_stats.sentiment_percentages` maps exactly the labels
occurring in the input — absent labels are omitted — to
`round(count / total × 100, 2)`, and the resulting percentages sum to
100 ± 0.1. -/
theorem C2_sentiment_percentages :
    ∀ (data : List SentimentRecord) (period : String) (res : AggregationResult),
      aggregate_sentiment_data data period = some res →
      (∀ r ∈ data, r.sentiment ∈
        (["positive", "negative", "neutral", "unknown"] : List String)) →
      ((∀ lab : String,
          lab ∈ res.basic_stats.sentiment_percentages.map Prod.fst ↔
            lab ∈ sentiments data) ∧
       (∀ lab v, (lab, v) ∈ res.basic_stats.sentiment_percentages →
          v = round2Q (((sentiments data).count lab : ℚ) / (data.length : ℚ) * 100)) ∧
       |(res.basic_stats.sentiment_percentages.map Prod.snd).sum - 100| ≤ 1 / 10) := by
  intro data period res hagg hlab
  have hne : data ≠ [] := by
    intro hnil
    rw [hnil] at hagg
    simp [aggregate_sentiment_data] at hagg
  have hpct : res.basic_stats.sentiment_percentages = sentimentPercentages data := by
    cases data with
    | nil => exact absurd rfl hne
    | cons r rest =>
      rw [aggregate_sentiment_data] at hagg
      simp only [List.isEmpty_cons, Bool.false_eq_true, if_false, Option.some_inj] at hagg
      rw [← hagg]
  have hlen0 : (sentiments data).length = data.length := List.length_map _ _
  refine ⟨?_, ?_, ?_⟩
  · intro lab
    rw [hpct]
    have hkeys : (sentimentPercentages data).map Prod.fst = firstOccs (sentiments data) := by
      rw [sentimentPercentages, counterItems, List.map_map, List.map_map]
      exact List.map_id _
    rw [hkeys]
    exact mem_firstOccs
  · intro lab v hmem
    rw [hpct, sentimentPercentages] at hmem
    obtain ⟨kv, hkv, hkeq⟩ := List.mem_map.1 hmem
    rw [counterItems] at hkv
    obtain ⟨k, hk, hmk⟩ := List.mem_map.1 hkv
    rw [← hmk] at hkeq
    have h1 : k = lab := congrArg Prod.fst hkeq
    have h2 : round2Q ((((sentiments data).count k : ℕ) : ℚ) / (data.length : ℚ) * 100) = v :=
      congrArg Prod.snd hkeq
    rw [← h2, h1]
  · have hsnd : (sentimentPercentages data).map Prod.snd =
        (firstOccs (sentiments data)).map fun k =>
          round2Q ((((sentiments data).count k : ℕ) : ℚ) / (data.length : ℚ) * 100) := by
      rw [sentimentPercentages, counterItems, List.map_map, List.map_map]
      rfl
    rw [hpct, hsnd]
    set F := firstOccs (sentiments data) with hF
    set n : ℚ := (data.length : ℚ) with hn
    have hnpos : 0 < n := by
      rw [hn]
      exact_mod_cast List.length_pos.2 hne
    set f : String → ℚ := fun k => round2Q (((sentiments data).count k : ℚ) / n * 100)
      with hf
    set g : String → ℚ := fun k => ((sentiments data).count k : ℚ) / n * 100 with hg
    have hX : (F.map g).sum = 100 := by
      rw [hg]
      rw [sum_map_div_mul F (fun k => ((sentiments data).count k : ℚ)) n]
      have hcast : (F.map fun k => (((sentiments data).count k : ℕ) : ℚ)).sum =
          (((F.map fun k => (sentiments data).count k).sum : ℕ) : ℚ) := by
        rw [Nat.cast_list_sum, List.map_map]
        rfl
      rw [hcast, sum_counts_firstOccs, hlen0]
      field_simp
    have hFlen : F.length ≤ 4 := by
      have hsub : F.toFinset ⊆
          (["positive", "negative", "neutral", "unknown"] : List String).toFinset := by
        intro a ha
        rw [List.mem_toFinset] at ha ⊢
        rw [hF, mem_firstOccs] at ha
        obtain ⟨r, hr, hre⟩ := List.mem_map.1 ha
        rw [← hre]
        exact hlab r hr
      have hcard : F.toFinset.card = F.length := by
        rw [List.card_toFinset, List.dedup_eq_self.2 (firstOccs_nodup _)]
      have h4 : (["positive", "negative", "neutral", "unknown"] :
          List String).toFinset.card ≤ 4 := by
        rw [List.card_toFinset]
        exact (List.dedup_sublist _).length_le.trans (by rfl)
      calc F.length = F.toFinset.card := hcard.symm
        _ ≤ _ := Finset.card_le_card hsub
        _ ≤ 4 := h4
    have hdiff : |(F.map f).sum - (F.map g).sum| ≤ 1 / 50 := by
      rw [sum_map_sub]
      refine (abs_list_sum_le F fun k => f k - g k).trans ?_
      have hterm : ∀ k ∈ F, |f k - g k| ≤ 1 / 200 := fun k _ => abs_round2Q_sub _
      refine (sum_abs_le_card F _ _ hterm).trans ?_
      have : (F.length : ℚ) ≤ 4 := by exact_mod_cast hFlen
      nlinarith
    rw [hX] at hdiff
    calc |(F.map f).sum - 100| ≤ 1 / 50 := hdiff
      _ ≤ 1 / 10 := by norm_num

/-- Witness for C2: two records labelled positive and negative give
percentages summing exactly to 100. -/
theorem C2_witness :
    (∀ r ∈ ([recPos, recNeg] : List SentimentRecord),
      r.sentiment ∈ (["positive", "negative", "neutral", "unknown"] : List String)) ∧
    |((((aggregate_sentiment_data [recPos, recNeg]
          "hourly").getD defaultAggregation).basic_stats.sentiment_percentages).map
        Prod.snd).sum - 100| ≤ 1 / 10 := by
  have hyp : ∀ r ∈ ([recPos, recNeg] : List SentimentRecord),
      r.sentiment ∈ (["positive", "negative", "neutral", "unknown"] : List String) := by
    intro r hr
    rcases List.mem_cons.1 hr with h | h
    · rw [h, recPos]; simp
    · rcases List.mem_cons.1 h with h2 | h2
      · rw [h2, recNeg]; simp
      · exact absurd h2 (List.not_mem_nil r)
  exact ⟨hyp, (C2_sentiment_percentages [recPos, recNeg] "hourly"
    ((aggregate_sentiment_data [recPos, recNeg] "hourly").getD defaultAggregation)
    rfl hyp).2.2⟩

/-- Witness for C9 at the concrete text "good": one positive lexicon hit,
no negative hit, so the fallback labels it positive with the formula
confidence. -/
theorem C9_witness :
    negativeCount "good" < positiveCount "good" ∧
    (perform_keyword_based_sentiment "good").sentiment = "positive" ∧
    (perform_keyword_based_sentiment "good").confidence =
      min 0.8 (0.5 + ((positiveCount "good" : ℚ) - (negativeCount "good" : ℚ)) * 0.1) :=
  ⟨by decide, (C9_keyword_fallback_heuristic.2 "good").1.mpr (by decide),
   (C9_keyword_fallback_heuristic.2 "good").2.2.2.1 (by decide)⟩

/-- Each counter item pairs a keyword occurring in the list with its
occurrence count. -/
theorem mem_counterItems {α : Type} [DecidableEq α] {y : α × ℕ} {l : List α}
    (hy : y ∈ counterItems l) : y.1 ∈ l ∧ y.2 = l.count y.1 := by
  rw [counterItems] at hy
  obtain ⟨k, hk, hmk⟩ := List.mem_map.1 hy
  rw [← hmk]
  exact ⟨mem_firstOccs.1 hk, rfl⟩

/-- The second component of any element of the decorated sort is a counter
item. -/
theorem snd_mem_items_of_mem_sort (l : List String) :
    ∀ x ∈ List.insertionSort mcRel (counterItems l).enum, x.2 ∈ counterItems l := by
  intro x hx
  have h1 : x ∈ (counterItems l).enum :=
    (List.perm_insertionSort mcRel (counterItems l).enum).mem_iff.1 hx
  have h2 : x.2 ∈ (counterItems l).enum.map Prod.snd := List.mem_map_of_mem _ h1
  rwa [List.enum_map_snd] at h2

/-- C7: `keyword_analysis.top_keywords` holds at most 20 entries — the
keywords with the highest occurrence counts across all records — ordered by
descending count with ties broken by first-encountered order (the index of
the decorated sort), and `total_unique_keywords` is the number of distinct
keywords seen. -/
theorem C7_top_keywords :
    ∀ data : List SentimentRecord,
      (∀ (period : String) (res : AggregationResult),
        aggregate_sentiment_data data period = some res →
        res.keyword_analysis.top_keywords = topKeywords data ∧
        res.keyword_analysis.total_unique_keywords =
          (counterItems (allKeywords data)).length) ∧
      (topKeywords data).length ≤ 20 ∧
      (∀ p ∈ topKeywords data,
        p.1 ∈ allKeywords data ∧ p.2 = (allKeywords data).count p.1) ∧
      (topKeywords data).Pairwise (fun p q => q.2 ≤ p.2) ∧
      (mostCommon20 (allKeywords data)).Pairwise
        (fun a b => a.2.2 = b.2.2 → a.1 ≤ b.1) ∧
      (∀ k ∈ allKeywords data, k ∉ (topKeywords data).map Prod.fst →
        ∀ p ∈ topKeywords data, (allKeywords data).count k ≤ p.2) ∧
      (counterItems (allKeywords data)).length = (allKeywords data).dedup.length := by
  intro data
  have hsorted : List.Pairwise mcRel
      (List.insertionSort mcRel (counterItems (allKeywords data)).enum) :=
    List.sorted_insertionSort mcRel (counterItems (allKeywords data)).enum
  refine ⟨?_, ?_, ?_, ?_, ?_, ?_, ?_⟩
  · intro period res h
    cases data with
    | nil => simp [aggregate_sentiment_data] at h
    | cons r rest =>
      rw [aggregate_sentiment_data] at h
      simp only [List.isEmpty_cons, Bool.false_eq_true, if_false, Option.some_inj] at h
      rw [← h]
      exact ⟨rfl, rfl⟩
  · rw [topKeywords, List.length_map, mostCommon20, List.length_take]
    exact min_le_left _ _
  · intro p hp
    rw [topKeywords, mostCommon20] at hp
    obtain ⟨dp, hdp, hdpe⟩ := List.mem_map.1 hp
    have hdp2 := (List.take_subset _ _) hdp
    have hitem := snd_mem_items_of_mem_sort (allKeywords data) dp hdp2
    rw [← hdpe]
    exact mem_counterItems hitem
  · rw [topKeywords, mostCommon20, List.pairwise_map]
    refine ((hsorted.sublist (List.take_sublist _ _)).imp ?_)
    intro a b hab
    rcases hab with hlt | ⟨heq, _⟩
    · exact le_of_lt hlt
    · exact heq.ge
  · rw [mostCommon20]
    refine ((hsorted.sublist (List.take_sublist _ _)).imp ?_)
    intro a b hab heq
    rcases hab with hlt | ⟨_, hle⟩
    · exact absurd (heq ▸ hlt) (lt_irrefl _)
    · exact hle
  · intro k hk hknot p hp
    have hkf : k ∈ firstOccs (allKeywords data) := mem_firstOccs.2 hk
    have hkitem : (k, (allKeywords data).count k) ∈ counterItems (allKeywords data) := by
      rw [counterItems]
      exact List.mem_map_of_mem _ hkf
    have hkenum : (k, (allKeywords data).count k) ∈
        (counterItems (allKeywords data)).enum.map Prod.snd := by
      rw [List.enum_map_snd]
      exact hkitem
    obtain ⟨ip, hip, hipe⟩ := List.mem_map.1 hkenum
    have hipsrt : ip ∈ List.insertionSort mcRel (counterItems (allKeywords data)).enum :=
      (List.perm_insertionSort mcRel _).mem_iff.2 hip
    rw [topKeywords, mostCommon20] at hp
    obtain ⟨dp, hdp, hdpe⟩ := List.mem_map.1 hp
    have hipdrop : ip ∈ (List.insertionSort mcRel
        (counterItems (allKeywords data)).enum).drop 20 := by
      rcases List.mem_append.1 (by
          rwa [List.take_append_drop 20
            (List.insertionSort mcRel (counterItems (allKeywords data)).enum)]) with
        htk | hdr
      · exfalso
        apply hknot
        rw [topKeywords, mostCommon20]
        have h2 : ip.2 ∈ ((List.insertionSort mcRel
            (counterItems (allKeywords data)).enum).take 20).map Prod.snd :=
          List.mem_map_of_mem _ htk
        have h3 := List.mem_map_of_mem Prod.fst h2
        rw [hipe] at h3
        exact h3
      · exact hdr
    have hcross : mcRel dp ip := by
      have h := hsorted
      rw [← List.take_append_drop 20
        (List.insertionSort mcRel (counterItems (allKeywords data)).enum)] at h
      exact (List.pairwise_append.1 h).2.2 dp hdp ip hipdrop
    have hle : ip.2.2 ≤ dp.2.2 := by
      rcases hcross with hlt | ⟨heq, _⟩
      · exact le_of_lt hlt
      · exact heq.ge
    have h1 : ip.2.2 = (allKeywords data).count k := congrArg Prod.snd hipe
    have h2 : dp.2.2 = p.2 := congrArg Prod.snd hdpe
    rw [h1, h2] at hle
    exact hle
  · rw [counterItems, List.length_map, firstOccs, List.length_reverse]
    exact (List.Perm.dedup (List.reverse_perm (allKeywords data))).length_eq

/-- Witness for C7 at two records with keywords [a, b] and [b]: the top
keyword list is exactly b (count 2) then a (count 1), and the membership
characterisation applies to the entry for b. -/
theorem C7_witness :
    ("b", 2) ∈ topKeywords
      [{ sentiment := "positive", confidence := none, emotions := [], keywords := ["a", "b"] },
       { sentiment := "neutral", confidence := none, emotions := [], keywords := ["b"] }] ∧
    ("b" ∈ allKeywords
      [{ sentiment := "positive", confidence := none, emotions := [], keywords := ["a", "b"] },
       { sentiment := "neutral", confidence := none, emotions := [], keywords := ["b"] }] ∧
     (2 : ℕ) = (allKeywords
      [{ sentiment := "positive", confidence := none, emotions := [], keywords := ["a", "b"] },
       { sentiment := "neutral", confidence := none, emotions := [], keywords := ["b"] }]).count "b") := by
  refine ⟨by decide, ?_⟩
  exact (C7_top_keywords
    [{ sentiment := "positive", confidence := none, emotions := [], keywords := ["a", "b"] },
     { sentiment := "neutral", confidence := none, emotions := [], keywords := ["b"] }]).2.2.1
    ("b", 2) (by decide)

end SocialListening
